import Mathlib

/-!
# mountain-backup: the `main` orchestrator

A shallow embedding of `src/main.go`.  The process is modelled as a state
transformer that either continues or has terminated with an exit code
(`os.Exit` ends the process at once, without running deferred calls).  What
the outside world answers (does a source back up, does the upload work, what
does the push gateway reply) is collected in a `World` record.

`main` is embedded statement by statement.  After the help check it calls
`os.Exit(0)` (line 46), so `runMain` never enters lines 48-209; those lines
are the definition `backupRun`, and `runBackup` runs them from the state in
which control would reach line 48.  Statements about every run of the program
are made on `runMain`; what the source loops and the reporter do once they are
reached is stated on `runBackup`, `runSources` and `metricsReporter`.
-/

namespace MountainBackup

/-! ## Data model -/

/-- The two kinds of source `main` iterates over: `cfg.Files` and `cfg.Prometheus`. -/
inductive SourceKind
  | file
  | prometheus
  deriving DecidableEq, Repr

/-- The places where `main` calls `logger.Fatalf` or `logger.Error`. -/
inductive LogSite
  | configLoad
  | createFile
  | closeFile
  | removeFile
  | gzipClose
  | tarClose
  | backup (kind : SourceKind) (key : String)
  | minioNew
  | upload
  | pushTransport
  | pushStatus
  | pushResponseBody
  | pushReadAll
  | pushBodyClose
  deriving DecidableEq, Repr

/-- Effects of the process, recorded in program order. -/
inductive Event
  | printUsage
  | loadConfig
  | registerReporter
  | createFile
  | backup (kind : SourceKind) (key : String)
  | minioNew
  | fPutObject
  | tarClose
  | gzipClose
  | removeFile
  | closeFile
  | reporterRun
  | httpPost (path body : String)
  | logError (site : LogSite)
  | logFatal (site : LogSite)
  | nilDereference
  deriving DecidableEq, Repr

/-- The calls `main` defers (lines 29, 123, 128, 137, 146). -/
inductive Deferred
  | goodbyeExit
  | closeFile
  | removeFile
  | gzipClose
  | tarClose
  deriving DecidableEq, Repr

/-- What one `Backup(logger, tarW)` call returns: `(numBackedUp, err)`. -/
structure SourceOutcome where
  key : String
  numBackedUp : Int
  failed : Bool
  deriving DecidableEq, Repr

/-- What `http.Post` gives the metrics reporter. -/
inductive PushResult
  | transportError
  | response (status : Nat) (readAllFails : Bool) (bodyCloseFails : Bool)
  deriving DecidableEq, Repr

/-- Everything outside the process that `main` consults.  `files` and
`prometheus` list the entries of `cfg.Files` and `cfg.Prometheus` in the order
the two `range` loops yield them (the `config` package is not part of the
sources at hand). -/
structure World where
  configLoadFails : Bool
  metricsEnabled : Bool
  pushGatewayHostParses : Bool
  labelHost : String
  files : List SourceOutcome
  prometheus : List SourceOutcome
  createFails : Bool
  fileCloseFails : Bool
  removeFails : Bool
  gzipCloseFails : Bool
  tarCloseFails : Bool
  minioNewFails : Bool
  fPutObjectFails : Bool
  push : PushResult
  deriving Repr

/-- The mutable state of the process. -/
structure ProcState where
  trace : List Event
  defers : List Deferred
  reporterRegistered : Bool
  backupSuccess : Bool
  backupNumberFiles : Int
  deriving DecidableEq, Repr

/-- The state in which `main` starts. -/
def ProcState.init : ProcState :=
  { trace := [], defers := [], reporterRegistered := false,
    backupSuccess := false, backupNumberFiles := 0 }

/-! ## The process monad -/

/-- Result of running a piece of the program: it went on with a value, or the
process has exited with a code. -/
inductive Step (α : Type)
  | next (a : α) (s : ProcState)
  | exited (code : Int) (s : ProcState)

/-- A piece of the program. -/
def Run (α : Type) : Type := ProcState → Step α

/-- Sequencing: nothing runs after the process has exited. -/
def Run.bind {α β : Type} (m : Run α) (f : α → Run β) : Run β := fun s =>
  match m s with
  | .next a s1 => f a s1
  | .exited c s1 => .exited c s1

instance : Monad Run where
  pure a := fun s => .next a s
  bind := Run.bind

/-- The state a step ended in. -/
def Step.state {α : Type} : Step α → ProcState
  | .next _ s => s
  | .exited _ s => s

/-- The exit code of the process: the argument of `os.Exit`, or 0 when `main`
returns. -/
def Step.exitCode {α : Type} : Step α → Int
  | .next _ _ => 0
  | .exited c _ => c

/-- Go's `os.Exit(code)`: the process ends immediately; deferred functions are
not run. -/
def osExit (code : Int) : Run Unit := fun s => .exited code s

/-- Record an effect. -/
def emit (e : Event) : Run Unit := fun s =>
  .next () { s with trace := s.trace ++ [e] }

/-- Go's `defer`: push a call on the function's deferred stack. -/
def pushDefer (d : Deferred) : Run Unit := fun s =>
  .next () { s with defers := d :: s.defers }

/-- The logger's `Fatalf` (library `golog`, outside the sources at hand; it
wraps the standard `log.Fatalf`): write the message, then `os.Exit(1)`. -/
def loggerFatalf (site : LogSite) : Run Unit := do
  emit (.logFatal site)
  osExit 1

/-- The logger's `Error`: write the message and go on. -/
def loggerError (site : LogSite) : Run Unit :=
  emit (.logError site)

/-- A nil pointer dereference: the Go runtime panics and the process ends with
status 2. -/
def nilPanic : Run Unit := do
  emit .nilDereference
  osExit 2

/-! ## Integers and formatting -/

/-- Go's `int` on a 64-bit platform: wrap into `[-2^63, 2^63)`. -/
def wrapInt (x : Int) : Int :=
  (x + 9223372036854775808) % 18446744073709551616 - 9223372036854775808

/-- Decimal digits of a natural number, most significant first. -/
def decimalDigits (n : Nat) : List Char :=
  if n < 10 then [Nat.digitChar n]
  else decimalDigits (n / 10) ++ [Nat.digitChar (n % 10)]
termination_by n
decreasing_by omega

/-- The verb `%d` of `fmt.Sprintf` applied to an integer. -/
def sprintfD (n : Int) : String :=
  if n < 0 then "-" ++ String.mk (decimalDigits n.natAbs)
  else String.mk (decimalDigits n.natAbs)

/-- Line 75: `reqUrl.Path = fmt.Sprintf("/metrics/job/backup/host/%s", cfg.Metrics.LabelHost)`. -/
def metricsPath (labelHost : String) : String :=
  "/metrics/job/backup/host/" ++ labelHost

/-- Lines 78-82: the body the reporter builds from the two run results. -/
def metricsBody (backupSuccess : Bool) (backupNumberFiles : Int) : String :=
  let backupSuccessInt : Int := if !backupSuccess then 0 else 1
  "backup_success " ++ sprintfD backupSuccessInt ++ "\nbackup_number_files "
    ++ sprintfD backupNumberFiles ++ "\n"

/-! ## The program -/

/-- Lines 85-109 of the reporter: what follows the `http.Post` call.  The
closure deferred at line 87 closes the response body when the handler returns;
`logger.Fatalf` exits before it can run. -/
def afterPost : PushResult → Run Unit
  | .transportError => loggerFatalf .pushTransport
  | .response status readAllFails bodyCloseFails => do
    if status != 202 then
      loggerError .pushStatus
      if readAllFails then
        loggerFatalf .pushReadAll
      loggerFatalf .pushResponseBody
    if bodyCloseFails then
      loggerFatalf .pushBodyClose

/-- Lines 66-110: the handler registered with `goodbye.Register`.  It reads
`backupSuccess` and `backupNumberFiles` when it runs. -/
def metricsReporter (w : World) : Run Unit := fun s =>
  (do
    emit .reporterRun
    if !w.metricsEnabled then
      return
    if !w.pushGatewayHostParses then
      nilPanic
    emit (.httpPost (metricsPath w.labelHost)
      (metricsBody s.backupSuccess s.backupNumberFiles))
    afterPost w.push : Run Unit) s

/-- The call `goodbye.Exit(ctx, exitCode)` (library `goodbye`, outside the
sources at hand): run the registered handlers; exit with `exitCode` unless it
is negative. -/
def goodbyeExit (w : World) (exitCode : Int) : Run Unit := fun s =>
  (do
    if s.reporterRegistered then
      metricsReporter w
    if 0 ≤ exitCode then
      osExit exitCode : Run Unit) s

/-- One deferred call of `main`, run when `main` returns. -/
def runDeferred (w : World) : Deferred → Run Unit
  | .goodbyeExit => goodbyeExit w (-1)
  | .closeFile => do
    emit .closeFile
    if w.fileCloseFails then
      loggerFatalf .closeFile
  | .removeFile => do
    emit .removeFile
    if w.removeFails then
      loggerFatalf .removeFile
  | .gzipClose => do
    emit .gzipClose
    if w.gzipCloseFails then
      loggerFatalf .gzipClose
  | .tarClose => do
    emit .tarClose
    if w.tarCloseFails then
      loggerFatalf .tarClose

/-- Run deferred calls, the most recently deferred first. -/
def runDefers (w : World) : List Deferred → Run Unit
  | [] => pure ()
  | d :: ds => do
    runDeferred w d
    runDefers w ds

/-- A normal return from `main`: its deferred calls run in reverse order. -/
def returnFromMain (w : World) : Run Unit := fun s =>
  runDefers w s.defers { s with defers := [] }

/-- Lines 153-168 and 171-186: one `range` loop over configured sources.  The
count a `Backup` call returns is added only after the error check. -/
def backupSources (kind : SourceKind) : List SourceOutcome → Run Unit
  | [] => pure ()
  | c :: rest => do
    emit (.backup kind c.key)
    if c.failed then
      loggerFatalf (.backup kind c.key)
    (fun s => .next ()
      { s with backupNumberFiles := wrapInt (s.backupNumberFiles + c.numBackedUp) })
    backupSources kind rest

/-- Lines 48-57: load the configuration. -/
def loadConfiguration (w : World) : Run Unit := do
  emit .loadConfig
  if w.configLoadFails then
    loggerFatalf .configLoad

/-- Lines 61 and 64: `backupSuccess := false`, `backupNumberFiles := 0`. -/
def declareRunResult : Run Unit := fun s =>
  .next () { s with backupSuccess := false, backupNumberFiles := 0 }

/-- Line 66: `goodbye.Register(...)`. -/
def registerReporter : Run Unit := fun s =>
  .next () { s with trace := s.trace ++ [.registerReporter], reporterRegistered := true }

/-- Lines 112-150: create the staged file and stack the gzip and tar writers
on it, deferring the four clean-up calls. -/
def openArchive (w : World) : Run Unit := do
  if w.createFails then
    loggerFatalf .createFile
  emit .createFile
  pushDefer .closeFile
  pushDefer .removeFile
  pushDefer .gzipClose
  pushDefer .tarClose

/-- Lines 152-186: the file sources, then the Prometheus sources. -/
def runSources (w : World) : Run Unit := do
  backupSources .file w.files
  backupSources .prometheus w.prometheus

/-- Lines 188-205: create the client and upload the staged file. -/
def uploadBackup (w : World) : Run Unit := do
  emit .minioNew
  if w.minioNewFails then
    loggerFatalf .minioNew
  emit .fPutObject
  if w.fPutObjectFails then
    loggerFatalf .upload

/-- Line 208: `backupSuccess = true`. -/
def setBackupSuccess : Run Unit := fun s =>
  .next () { s with backupSuccess := true }

/-- Lines 48-209 of `main`: the backup pipeline and the return from `main`. -/
def backupRun (w : World) : Run Unit := do
  loadConfiguration w
  declareRunResult
  registerReporter
  openArchive w
  runSources w
  uploadBackup w
  setBackupSuccess
  returnFromMain w

/-- The function `main` (lines 26-209).  `helpFlag` is the value of the `-help`
flag after `flag.Parse()`. -/
def main (helpFlag : Bool) (w : World) : Run Unit := do
  pushDefer .goodbyeExit
  if helpFlag then
    emit .printUsage
    osExit 1
  osExit 0
  backupRun w

/-- One run of the program. -/
def runMain (helpFlag : Bool) (w : World) : Step Unit :=
  main helpFlag w ProcState.init

/-- The state in which control stands before line 48: only the call of line 29
has been deferred. -/
def ProcState.beforeLine48 : ProcState :=
  { ProcState.init with defers := [.goodbyeExit] }

/-- Lines 48-209 entered from the state before line 48. -/
def runBackup (w : World) : Step Unit :=
  backupRun w ProcState.beforeLine48

/-! ## Observations on a trace -/

/-- The sources whose `Backup` was called, in call order. -/
def invoked : List Event → List (SourceKind × String)
  | [] => []
  | .backup kind key :: rest => (kind, key) :: invoked rest
  | _ :: rest => invoked rest

/-- Number of occurrences of an effect in a trace. -/
def occurrences (e : Event) (tr : List Event) : Nat :=
  tr.count e

/-- The configured sources with their kind, in the order the two loops of
lines 152-186 visit them. -/
def tagged (w : World) : List (SourceKind × SourceOutcome) :=
  w.files.map (fun c => (SourceKind.file, c))
    ++ w.prometheus.map (fun c => (SourceKind.prometheus, c))

/-- The two loops read as one loop over the tagged sources. -/
def backupTagged : List (SourceKind × SourceOutcome) → Run Unit
  | [] => pure ()
  | c :: rest => do
    emit (.backup c.1 c.2.key)
    if c.2.failed then
      loggerFatalf (.backup c.1 c.2.key)
    (fun s => .next ()
      { s with backupNumberFiles := wrapInt (s.backupNumberFiles + c.2.numBackedUp) })
    backupTagged rest

/-- The running total after the given sources, each added with Go's `+=`. -/
def accumulate (cs : List (SourceKind × SourceOutcome)) (start : Int) : Int :=
  cs.foldl (fun acc c => wrapInt (acc + c.2.numBackedUp)) start

/-- The `Backup` calls made for the given sources. -/
def backupEvents (cs : List (SourceKind × SourceOutcome)) : List Event :=
  cs.map (fun c => Event.backup c.1 c.2.key)

/-- The counts returned by the given sources. -/
def counts (cs : List (SourceKind × SourceOutcome)) : List Int :=
  cs.map (fun c => c.2.numBackedUp)

/-- The state in which the source loops start when the configuration loaded
and the staged file was created (lines 48-150). -/
def ProcState.archiveOpened : ProcState :=
  { trace := [.loadConfig, .registerReporter, .createFile],
    defers := [.tarClose, .gzipClose, .removeFile, .closeFile, .goodbyeExit],
    reporterRegistered := true, backupSuccess := false, backupNumberFiles := 0 }

/-- Lines 188-209: the upload, the success flag and the return from `main`. -/
def finishRun (w : World) : Run Unit := do
  uploadBackup w
  setBackupSuccess
  returnFromMain w

/-- The `(path, body)` pairs posted in a trace. -/
def posts : List Event → List (String × String)
  | [] => []
  | .httpPost path body :: rest => (path, body) :: posts rest
  | _ :: rest => posts rest

/-- Split a text into its newline-terminated lines and the unterminated rest. -/
def terminatedLines : List Char → List (List Char) × List Char
  | [] => ([], [])
  | c :: rest =>
    if c = '\n' then ([] :: (terminatedLines rest).1, (terminatedLines rest).2)
    else
      match (terminatedLines rest).1 with
      | [] => ([], c :: (terminatedLines rest).2)
      | l :: ls => ((c :: l) :: ls, (terminatedLines rest).2)

/-- Value of a decimal digit character. -/
def digitValue (c : Char) : Nat := c.toNat - 48

/-- Read a digit string as a decimal number. -/
def decodeDecimal (cs : List Char) : Nat :=
  cs.foldl (fun acc c => 10 * acc + digitValue c) 0

/-- Read an optionally signed digit string as a decimal integer. -/
def decodeInt : List Char → Int
  | '-' :: cs => - (decodeDecimal cs : Int)
  | cs => (decodeDecimal cs : Int)

/-! ## Sample worlds -/

/-- A world in which everything works: two file sources, one Prometheus source,
metrics enabled and accepted by the push gateway. -/
def worldAllGood : World :=
  { configLoadFails := false, metricsEnabled := true, pushGatewayHostParses := true,
    labelHost := "mountain",
    files := [⟨"etc", 3, false⟩, ⟨"home", 7, false⟩],
    prometheus := [⟨"prom", 1, false⟩],
    createFails := false, fileCloseFails := false, removeFails := false,
    gzipCloseFails := false, tarCloseFails := false, minioNewFails := false,
    fPutObjectFails := false, push := .response 202 false false }

/-- As `worldAllGood`, but the second file source returns an error (after it
reports 7 files). -/
def worldSourceFails : World :=
  { worldAllGood with files := [⟨"etc", 3, false⟩, ⟨"home", 7, true⟩] }

/-- As `worldAllGood`, but `FPutObject` returns an error. -/
def worldUploadFails : World :=
  { worldAllGood with fPutObjectFails := true }

/-- As `worldAllGood`, but `http.Post` returns a transport error. -/
def worldPushFails : World :=
  { worldAllGood with push := .transportError }

/-- As `worldAllGood`, but the push gateway answers 500. -/
def worldPushRejected : World :=
  { worldAllGood with push := .response 500 false false }

/-! ## Facts about `main` as written -/

/-- Without the help flag `main` stops at line 46: exit code 0, nothing done. -/
lemma runMain_noHelp (w : World) :
    runMain false w = .exited 0 ProcState.beforeLine48 := rfl

/-- With the help flag `main` stops at line 44 after printing the usage. -/
lemma runMain_help (w : World) :
    runMain true w
      = .exited 1 { ProcState.beforeLine48 with trace := [.printUsage] } := rfl

/-! ## The monad, step by step -/

@[simp]
lemma bind_apply {α β : Type} (m : Run α) (f : α → Run β) (s : ProcState) :
    (m >>= f) s = Run.bind m f s := rfl

@[simp]
lemma pure_apply {α : Type} (a : α) (s : ProcState) :
    (pure a : Run α) s = .next a s := rfl

lemma bind_next {α β : Type} (m : Run α) (f : α → Run β) (s s1 : ProcState) (a : α)
    (h : m s = .next a s1) : Run.bind m f s = f a s1 := by
  simp [Run.bind, h]

lemma bind_exited {α β : Type} (m : Run α) (f : α → Run β) (s s1 : ProcState) (c : Int)
    (h : m s = .exited c s1) : Run.bind m f s = .exited c s1 := by
  simp [Run.bind, h]

/-! ## The source loops -/

lemma backupSources_eq_tagged (kind : SourceKind) (cs : List SourceOutcome) (s : ProcState) :
    backupSources kind cs s = backupTagged (cs.map (fun c => (kind, c))) s := by
  induction cs generalizing s with
  | nil => rfl
  | cons c rest ih =>
    simp only [backupSources, backupTagged, List.map_cons, bind_apply, Run.bind, emit]
    cases hc : c.failed <;> simp [Run.bind, loggerFatalf, emit, osExit, ih]

lemma backupTagged_append (xs ys : List (SourceKind × SourceOutcome)) (s : ProcState) :
    backupTagged (xs ++ ys) s = Run.bind (backupTagged xs) (fun _ => backupTagged ys) s := by
  induction xs generalizing s with
  | nil => rfl
  | cons c rest ih =>
    simp only [backupTagged, List.cons_append, bind_apply, Run.bind, emit]
    cases hc : c.2.failed <;> simp [Run.bind, loggerFatalf, emit, osExit, ih]

lemma runSources_eq_tagged (w : World) (s : ProcState) :
    runSources w s = backupTagged (tagged w) s := by
  simp only [runSources, tagged, backupTagged_append, bind_apply, Run.bind,
    backupSources_eq_tagged]

/-- Sources that all succeed: every one is called, every count is added. -/
lemma backupTagged_ok (cs : List (SourceKind × SourceOutcome))
    (h : ∀ c ∈ cs, c.2.failed = false) (s : ProcState) :
    backupTagged cs s = .next ()
      { s with trace := s.trace ++ backupEvents cs,
               backupNumberFiles := accumulate cs s.backupNumberFiles } := by
  induction cs generalizing s with
  | nil => simp [backupTagged, backupEvents, accumulate]
  | cons c rest ih =>
    have hc : c.2.failed = false := h c (List.mem_cons_self _ _)
    have hrest : ∀ d ∈ rest, d.2.failed = false :=
      fun d hd => h d (List.mem_cons_of_mem _ hd)
    simp [backupTagged, Run.bind, emit, hc, ih hrest, backupEvents, accumulate]

/-- The first failing source ends the process through `logger.Fatalf`: its
count is not added and nothing after it runs. -/
lemma backupTagged_fail (pre post : List (SourceKind × SourceOutcome))
    (bad : SourceKind × SourceOutcome)
    (hpre : ∀ c ∈ pre, c.2.failed = false) (hbad : bad.2.failed = true) (s : ProcState) :
    backupTagged (pre ++ bad :: post) s = .exited 1
      { s with trace := s.trace ++ backupEvents pre
                 ++ [.backup bad.1 bad.2.key, .logFatal (.backup bad.1 bad.2.key)],
               backupNumberFiles := accumulate pre s.backupNumberFiles } := by
  rw [backupTagged_append, bind_next _ _ _ _ _ (backupTagged_ok pre hpre s)]
  simp [backupTagged, Run.bind, emit, hbad, loggerFatalf, osExit]

/-- An integer that fits Go's `int` is left as it is. -/
lemma wrapInt_of_fits (x : Int) (h0 : -9223372036854775808 ≤ x)
    (h1 : x < 9223372036854775808) : wrapInt x = x := by
  unfold wrapInt
  omega

/-- Adding to a wrapped value and wrapping again is wrapping the sum. -/
lemma wrapInt_add (a b : Int) : wrapInt (wrapInt a + b) = wrapInt (a + b) := by
  unfold wrapInt
  omega

/-- The running total is the sum of the counts in Go's `int` arithmetic. -/
lemma accumulate_eq_wrap (cs : List (SourceKind × SourceOutcome)) (start : Int) :
    accumulate cs (wrapInt start) = wrapInt (start + (counts cs).sum) := by
  induction cs generalizing start with
  | nil => simp [accumulate, counts]
  | cons c rest ih =>
    have := ih (start + c.2.numBackedUp)
    simp only [accumulate, List.foldl_cons, counts, List.map_cons, List.sum_cons,
      wrapInt_add] at this ⊢
    rw [this]
    congr 1
    ring

lemma accumulate_zero (cs : List (SourceKind × SourceOutcome)) :
    accumulate cs 0 = wrapInt (counts cs).sum := by
  have h := accumulate_eq_wrap cs 0
  have h0 : wrapInt 0 = 0 := by decide
  rw [h0] at h
  simpa using h

lemma runBackup_sources (w : World) (hload : w.configLoadFails = false)
    (hcreate : w.createFails = false) :
    runBackup w
      = Run.bind (backupTagged (tagged w)) (fun _ => finishRun w) ProcState.archiveOpened := by
  have h : ∀ s, runSources w s = backupTagged (tagged w) s := runSources_eq_tagged w
  simp [runBackup, backupRun, Run.bind, loadConfiguration, emit, hload, declareRunResult,
    registerReporter, openArchive, hcreate, pushDefer, h, ProcState.beforeLine48,
    ProcState.init, ProcState.archiveOpened, finishRun]

lemma invoked_append (xs ys : List Event) :
    invoked (xs ++ ys) = invoked xs ++ invoked ys := by
  induction xs with
  | nil => rfl
  | cons e rest ih => cases e <;> simp [invoked, ih]

lemma invoked_backupEvents (cs : List (SourceKind × SourceOutcome)) :
    invoked (backupEvents cs) = cs.map (fun c => (c.1, c.2.key)) := by
  induction cs with
  | nil => rfl
  | cons c rest ih =>
    simp only [backupEvents, List.map_cons, invoked] at ih ⊢
    rw [ih]

lemma count_fPutObject_backupEvents (cs : List (SourceKind × SourceOutcome)) :
    (backupEvents cs).count Event.fPutObject = 0 := by
  induction cs with
  | nil => rfl
  | cons c rest ih =>
    simp only [backupEvents, List.map_cons] at ih ⊢
    rw [List.count_cons, ih]
    simp

lemma accumulate_allGood : accumulate (tagged worldAllGood) 0 = 11 := by
  simp [accumulate, tagged, worldAllGood, wrapInt]

/-- When everything works: the sources, the upload, then the deferred calls in
reverse order, the reporter last. -/
lemma runBackup_allGood :
    runBackup worldAllGood = .next ()
      { trace := [.loadConfig, .registerReporter, .createFile,
          .backup .file "etc", .backup .file "home", .backup .prometheus "prom",
          .minioNew, .fPutObject, .tarClose, .gzipClose, .removeFile, .closeFile,
          .reporterRun, .httpPost (metricsPath "mountain") (metricsBody true 11)],
        defers := [], reporterRegistered := true, backupSuccess := true,
        backupNumberFiles := 11 } := by
  rw [runBackup_sources worldAllGood rfl rfl,
    bind_next _ _ _ _ _ (backupTagged_ok (tagged worldAllGood) (by decide) _),
    show ProcState.archiveOpened.backupNumberFiles = 0 from rfl, accumulate_allGood]
  simp [finishRun, Run.bind, uploadBackup, emit, setBackupSuccess, returnFromMain, runDefers,
    runDeferred, goodbyeExit, metricsReporter, afterPost, worldAllGood, ProcState.archiveOpened,
    backupEvents, tagged, loggerFatalf, osExit]

/-- When the second file source fails: `logger.Fatalf` ends the process with
every deferred call still pending. -/
lemma runBackup_sourceFails :
    runBackup worldSourceFails = .exited 1
      { trace := [.loadConfig, .registerReporter, .createFile,
          .backup .file "etc", .backup .file "home",
          .logFatal (.backup .file "home")],
        defers := [.tarClose, .gzipClose, .removeFile, .closeFile, .goodbyeExit],
        reporterRegistered := true, backupSuccess := false,
        backupNumberFiles := 3 } := by
  have hsplit : tagged worldSourceFails
      = [(SourceKind.file, ⟨"etc", 3, false⟩)] ++ (SourceKind.file, ⟨"home", 7, true⟩)
          :: [(SourceKind.prometheus, ⟨"prom", 1, false⟩)] := rfl
  rw [runBackup_sources worldSourceFails rfl rfl, hsplit,
    bind_exited _ _ _ _ _ (backupTagged_fail _ _ _ (by decide) rfl _)]
  simp [ProcState.archiveOpened, backupEvents, accumulate, wrapInt]

/-- When `FPutObject` fails: again `logger.Fatalf` ends the process with every
deferred call still pending. -/
lemma runBackup_uploadFails :
    runBackup worldUploadFails = .exited 1
      { trace := [.loadConfig, .registerReporter, .createFile,
          .backup .file "etc", .backup .file "home", .backup .prometheus "prom",
          .minioNew, .fPutObject, .logFatal .upload],
        defers := [.tarClose, .gzipClose, .removeFile, .closeFile, .goodbyeExit],
        reporterRegistered := true, backupSuccess := false,
        backupNumberFiles := 11 } := by
  have hacc : accumulate (tagged worldUploadFails) 0 = 11 := accumulate_allGood
  rw [runBackup_sources worldUploadFails rfl rfl,
    bind_next _ _ _ _ _ (backupTagged_ok (tagged worldUploadFails) (by decide) _),
    show ProcState.archiveOpened.backupNumberFiles = 0 from rfl, hacc]
  simp [finishRun, Run.bind, uploadBackup, emit, worldUploadFails, worldAllGood,
    ProcState.archiveOpened, backupEvents, tagged, loggerFatalf, osExit]

/-- When the backup works and `http.Post` fails: the reporter's `logger.Fatalf`
ends the process with status 1. -/
lemma runBackup_pushFails :
    runBackup worldPushFails = .exited 1
      { trace := [.loadConfig, .registerReporter, .createFile,
          .backup .file "etc", .backup .file "home", .backup .prometheus "prom",
          .minioNew, .fPutObject, .tarClose, .gzipClose, .removeFile, .closeFile,
          .reporterRun, .httpPost (metricsPath "mountain") (metricsBody true 11),
          .logFatal .pushTransport],
        defers := [], reporterRegistered := true, backupSuccess := true,
        backupNumberFiles := 11 } := by
  have hacc : accumulate (tagged worldPushFails) 0 = 11 := accumulate_allGood
  rw [runBackup_sources worldPushFails rfl rfl,
    bind_next _ _ _ _ _ (backupTagged_ok (tagged worldPushFails) (by decide) _),
    show ProcState.archiveOpened.backupNumberFiles = 0 from rfl, hacc]
  simp [finishRun, Run.bind, uploadBackup, emit, setBackupSuccess, returnFromMain, runDefers,
    runDeferred, goodbyeExit, metricsReporter, afterPost, worldPushFails, worldAllGood,
    ProcState.archiveOpened, backupEvents, tagged, loggerFatalf, osExit]

/-- When the backup works and the gateway answers 500: the reporter logs the
status and then ends the process with status 1. -/
lemma runBackup_pushRejected :
    runBackup worldPushRejected = .exited 1
      { trace := [.loadConfig, .registerReporter, .createFile,
          .backup .file "etc", .backup .file "home", .backup .prometheus "prom",
          .minioNew, .fPutObject, .tarClose, .gzipClose, .removeFile, .closeFile,
          .reporterRun, .httpPost (metricsPath "mountain") (metricsBody true 11),
          .logError .pushStatus, .logFatal .pushResponseBody],
        defers := [], reporterRegistered := true, backupSuccess := true,
        backupNumberFiles := 11 } := by
  have hacc : accumulate (tagged worldPushRejected) 0 = 11 := accumulate_allGood
  rw [runBackup_sources worldPushRejected rfl rfl,
    bind_next _ _ _ _ _ (backupTagged_ok (tagged worldPushRejected) (by decide) _),
    show ProcState.archiveOpened.backupNumberFiles = 0 from rfl, hacc]
  simp [finishRun, Run.bind, uploadBackup, emit, setBackupSuccess, returnFromMain, runDefers,
    runDeferred, goodbyeExit, metricsReporter, afterPost, worldPushRejected, worldAllGood,
    ProcState.archiveOpened, backupEvents, tagged, loggerFatalf, loggerError, osExit]

/-! ## Claims about every run of `main` -/

/-- C6: with the help flag set, `main` prints the usage text and exits with
code 1; printing is the only effect of the run: no configuration is loaded, no
staged file is created, no source is backed up, nothing is uploaded, no
reporter is registered or run and nothing is posted. -/
theorem help_prints_usage_and_exits_1 (w : World) :
    (runMain true w).exitCode = 1
      ∧ (runMain true w).state.trace = [Event.printUsage]
      ∧ (runMain true w).state.reporterRegistered = false
      ∧ invoked (runMain true w).state.trace = [] := by
  rw [runMain_help]
  exact ⟨rfl, rfl, rfl, rfl⟩

/-- C1: whatever the world, a run of `main` without the help flag ends with
exit code 0 and an empty trace: the exit code is 0 although no source backuper
was invoked, nothing was uploaded and `backupSuccess` was never set. -/
theorem noHelp_exits_0_without_backup (w : World) :
    (runMain false w).exitCode = 0
      ∧ (runMain false w).state.trace = []
      ∧ invoked (runMain false w).state.trace = []
      ∧ occurrences Event.fPutObject (runMain false w).state.trace = 0
      ∧ (runMain false w).state.backupSuccess = false := by
  rw [runMain_noHelp]
  exact ⟨rfl, rfl, rfl, rfl, rfl⟩

/-- C5: in a run of `main` without the help flag the metrics reporter is never
registered and never runs, and nothing is posted: it fires 0 times, not once.
In lines 48-209 it fires once when everything works and not at all when a
source fails, `logger.Fatalf` leaving the deferred `goodbye.Exit` pending. -/
theorem noHelp_reporter_never_fires (w : World) :
    occurrences Event.reporterRun (runMain false w).state.trace = 0
      ∧ (runMain false w).state.reporterRegistered = false
      ∧ posts (runMain false w).state.trace = []
      ∧ occurrences Event.reporterRun (runBackup worldAllGood).state.trace = 1
      ∧ occurrences Event.reporterRun (runBackup worldSourceFails).state.trace = 0
      ∧ (runBackup worldSourceFails).state.defers.getLast? = some Deferred.goodbyeExit := by
  rw [runMain_noHelp, runBackup_allGood, runBackup_sourceFails]
  refine ⟨rfl, rfl, rfl, ?_, ?_, rfl⟩ <;>
    simp [occurrences, Step.state]

/-- C3, on lines 48-209: when the configuration loads, the staged file is
created and some source backuper returns an error, the run ends with exit
code 1 and `backupSuccess` still false; the sources invoked are exactly those
before the first failing one and that one, so none after it is invoked; and
`FPutObject` is never invoked. -/
theorem source_error_aborts_run (w : World)
    (pre post : List (SourceKind × SourceOutcome)) (bad : SourceKind × SourceOutcome)
    (hload : w.configLoadFails = false) (hcreate : w.createFails = false)
    (hsplit : tagged w = pre ++ bad :: post)
    (hpre : ∀ c ∈ pre, c.2.failed = false) (hbad : bad.2.failed = true) :
    (runBackup w).exitCode = 1
      ∧ (runBackup w).state.backupSuccess = false
      ∧ invoked (runBackup w).state.trace = (pre ++ [bad]).map (fun c => (c.1, c.2.key))
      ∧ occurrences Event.fPutObject (runBackup w).state.trace = 0 := by
  rw [runBackup_sources w hload hcreate, hsplit,
    bind_exited _ _ _ _ _ (backupTagged_fail pre post bad hpre hbad _)]
  refine ⟨rfl, rfl, ?_, ?_⟩
  · simp [Step.state, ProcState.archiveOpened, invoked_append, invoked_backupEvents, invoked]
  · simp [Step.state, ProcState.archiveOpened, occurrences, List.count_append,
      count_fPutObject_backupEvents]

/-- The run of `worldSourceFails`: "etc" succeeds, "home" fails, "prom" is
never reached. -/
theorem source_error_aborts_run_witness :
    tagged worldSourceFails
        = [(SourceKind.file, ⟨"etc", 3, false⟩)] ++ (SourceKind.file, ⟨"home", 7, true⟩)
            :: [(SourceKind.prometheus, ⟨"prom", 1, false⟩)]
      ∧ (runBackup worldSourceFails).exitCode = 1
      ∧ (runBackup worldSourceFails).state.backupSuccess = false
      ∧ invoked (runBackup worldSourceFails).state.trace
          = [(SourceKind.file, "etc"), (SourceKind.file, "home")]
      ∧ occurrences Event.fPutObject (runBackup worldSourceFails).state.trace = 0 :=
  ⟨rfl, source_error_aborts_run worldSourceFails
    [(SourceKind.file, ⟨"etc", 3, false⟩)] [(SourceKind.prometheus, ⟨"prom", 1, false⟩)]
    (SourceKind.file, ⟨"home", 7, true⟩) rfl rfl rfl (by decide) rfl⟩

/-- C10: `backupNumberFiles` is 0 when it is declared; the loops of lines
152-186 handle the first `k` sources (`pre`) and then the others; after those
`k` sources have completed without error the total is the sum of the counts
they returned, taken in Go's `int` arithmetic, which is the plain sum whenever
that fits; and when the next source fails, or there is none left, that sum is
what the loops leave behind: a failing source adds nothing. -/
theorem backupNumberFiles_is_sum (w : World)
    (pre rest : List (SourceKind × SourceOutcome)) (s : ProcState)
    (hsplit : tagged w = pre ++ rest)
    (hpre : ∀ c ∈ pre, c.2.failed = false) :
    (declareRunResult s).state.backupNumberFiles = 0
      ∧ runSources w (declareRunResult s).state
          = Run.bind (backupTagged pre) (fun _ => backupTagged rest) (declareRunResult s).state
      ∧ (backupTagged pre (declareRunResult s).state).state.backupNumberFiles
          = wrapInt (counts pre).sum
      ∧ ((∀ c ∈ rest.head?, c.2.failed = true) →
          (runSources w (declareRunResult s).state).state.backupNumberFiles
            = wrapInt (counts pre).sum)
      ∧ (-9223372036854775808 ≤ (counts pre).sum → (counts pre).sum < 9223372036854775808 →
          wrapInt (counts pre).sum = (counts pre).sum) := by
  have hacc : accumulate pre 0 = wrapInt (counts pre).sum := accumulate_zero pre
  refine ⟨rfl, ?_, ?_, ?_, wrapInt_of_fits _⟩
  · rw [runSources_eq_tagged, hsplit, backupTagged_append]
  · rw [backupTagged_ok pre hpre]
    simpa [Step.state, declareRunResult] using hacc
  · intro hrest
    rw [runSources_eq_tagged, hsplit]
    cases rest with
    | nil =>
      rw [List.append_nil, backupTagged_ok pre hpre]
      simpa [Step.state, declareRunResult] using hacc
    | cons bad post =>
      have hbad : bad.2.failed = true := hrest bad (by simp)
      rw [backupTagged_fail pre post bad hpre hbad]
      simpa [Step.state, declareRunResult] using hacc

/-- The loops on `worldSourceFails`: "etc" returns 3, "home" returns 7 with an
error; the total is 3. -/
theorem backupNumberFiles_is_sum_witness :
    tagged worldSourceFails
        = [(SourceKind.file, ⟨"etc", 3, false⟩)]
            ++ [(SourceKind.file, ⟨"home", 7, true⟩), (SourceKind.prometheus, ⟨"prom", 1, false⟩)]
      ∧ (backupTagged [(SourceKind.file, ⟨"etc", 3, false⟩)]
          (declareRunResult ProcState.beforeLine48).state).state.backupNumberFiles = 3
      ∧ (runSources worldSourceFails
          (declareRunResult ProcState.beforeLine48).state).state.backupNumberFiles = 3 := by
  have h := backupNumberFiles_is_sum worldSourceFails
    [(SourceKind.file, ⟨"etc", 3, false⟩)]
    [(SourceKind.file, ⟨"home", 7, true⟩), (SourceKind.prometheus, ⟨"prom", 1, false⟩)]
    ProcState.beforeLine48 rfl (by decide)
  have h3 : wrapInt (counts [(SourceKind.file, (⟨"etc", 3, false⟩ : SourceOutcome))]).sum = 3 := by
    decide
  exact ⟨rfl, h3 ▸ h.2.2.1, h3 ▸ h.2.2.2.1 (by decide)⟩

/-! ## Claims about the metrics reporter -/

lemma digitChar_isDigit (d : Nat) (h : d < 10) : (Nat.digitChar d).isDigit = true := by
  interval_cases d <;> rfl

lemma digitValue_digitChar (d : Nat) (h : d < 10) : digitValue (Nat.digitChar d) = d := by
  interval_cases d <;> rfl

lemma decimalDigits_isDigit (n : Nat) : ∀ c ∈ decimalDigits n, c.isDigit = true := by
  induction n using Nat.strong_induction_on with
  | _ n ih =>
    intro c hc
    rw [decimalDigits] at hc
    split at hc
    · rename_i h
      simp only [List.mem_singleton] at hc
      rw [hc]
      exact digitChar_isDigit n h
    · rename_i h
      simp only [List.mem_append, List.mem_singleton] at hc
      rcases hc with hc | hc
      · exact ih (n / 10) (by omega) c hc
      · rw [hc]
        exact digitChar_isDigit (n % 10) (by omega)

lemma decodeDecimal_append (xs : List Char) (c : Char) :
    decodeDecimal (xs ++ [c]) = 10 * decodeDecimal xs + digitValue c := by
  simp [decodeDecimal, List.foldl_append]

lemma decodeDecimal_decimalDigits (n : Nat) : decodeDecimal (decimalDigits n) = n := by
  induction n using Nat.strong_induction_on with
  | _ n ih =>
    rw [decimalDigits]
    split
    · rename_i h
      simp [decodeDecimal, digitValue_digitChar n h]
    · rename_i h
      rw [decodeDecimal_append, ih (n / 10) (by omega),
        digitValue_digitChar (n % 10) (by omega)]
      omega

lemma sprintfD_data (n : Int) :
    (sprintfD n).data
      = if n < 0 then '-' :: decimalDigits n.natAbs else decimalDigits n.natAbs := by
  unfold sprintfD
  split <;> simp

lemma sprintfD_no_newline (n : Int) : ∀ c ∈ (sprintfD n).data, c ≠ '\n' := by
  intro c hc hnl
  rw [sprintfD_data] at hc
  have hdig : ∀ d ∈ decimalDigits n.natAbs, d ≠ '\n' := by
    intro d hd hdn
    have := decimalDigits_isDigit n.natAbs d hd
    rw [hdn] at this
    exact absurd this (by decide)
  split at hc
  · simp only [List.mem_cons] at hc
    rcases hc with hc | hc
    · rw [hc] at hnl
      exact absurd hnl (by decide)
    · exact hdig c hc hnl
  · exact hdig c hc hnl

lemma terminatedLines_line (l rest : List Char) (h : ∀ c ∈ l, c ≠ '\n') :
    terminatedLines (l ++ '\n' :: rest)
      = (l :: (terminatedLines rest).1, (terminatedLines rest).2) := by
  induction l with
  | nil => simp [terminatedLines]
  | cons c l ih =>
    have hc : c ≠ '\n' := h c (List.mem_cons_self _ _)
    have hl : ∀ d ∈ l, d ≠ '\n' := fun d hd => h d (List.mem_cons_of_mem _ hd)
    simp [terminatedLines, hc, ih hl]

lemma sprintfD_flag (b : Bool) :
    sprintfD (if (!b) = true then 0 else 1) = if b then "1" else "0" := by
  cases b
  · simp [sprintfD, decimalDigits]
    rfl
  · simp [sprintfD, decimalDigits]
    rfl

lemma decodeInt_sprintfD (n : Int) : decodeInt (sprintfD n).data = n := by
  rw [sprintfD_data]
  split
  · rename_i h
    simp only [decodeInt, decodeDecimal_decimalDigits]
    omega
  · rename_i h
    have hne : ∀ cs, decimalDigits n.natAbs = '-' :: cs → False := by
      intro cs hcs
      have := decimalDigits_isDigit n.natAbs '-' (by rw [hcs]; exact List.mem_cons_self _ _)
      exact absurd this (by decide)
    cases hd : decimalDigits n.natAbs with
    | nil =>
      have := decodeDecimal_decimalDigits n.natAbs
      rw [hd] at this
      simp only [decodeInt, decodeDecimal, List.foldl_nil] at this ⊢
      omega
    | cons c cs =>
      have hc : c ≠ '-' := by
        intro hc
        exact hne cs (by rw [hd, hc])
      have := decodeDecimal_decimalDigits n.natAbs
      rw [hd] at this
      unfold decodeInt
      split
      · rename_i heq
        simp only [List.cons.injEq] at heq
        exact absurd heq.1 hc
      · rw [this]
        omega

lemma posts_append (xs ys : List Event) : posts (xs ++ ys) = posts xs ++ posts ys := by
  induction xs with
  | nil => rfl
  | cons e rest ih => cases e <;> simp [posts, ih]

/-- What the reporter posts: nothing when metrics are disabled or the gateway
address does not parse, else one body at one path. -/
lemma posts_metricsReporter (w : World) (s : ProcState) :
    posts (metricsReporter w s).state.trace
      = posts s.trace ++
          (if w.metricsEnabled && w.pushGatewayHostParses
            then [(metricsPath w.labelHost, metricsBody s.backupSuccess s.backupNumberFiles)]
            else []) := by
  unfold metricsReporter
  cases hen : w.metricsEnabled <;> cases hurl : w.pushGatewayHostParses
  · simp [Run.bind, emit, Step.state, posts_append, posts]
  · simp [Run.bind, emit, Step.state, posts_append, posts]
  · simp [Run.bind, emit, Step.state, posts_append, posts, nilPanic, osExit]
  · cases hp : w.push with
    | transportError =>
      simp [Run.bind, emit, Step.state, posts_append, posts, afterPost, loggerFatalf, osExit]
    | response status readAllFails bodyCloseFails =>
      by_cases hst : status = 202 <;> cases readAllFails <;> cases bodyCloseFails <;>
        simp [Run.bind, emit, Step.state, posts_append, posts, afterPost, loggerFatalf,
          loggerError, osExit, hst]

/-- C7: the body built from a success flag `b` and a count `n` consists of
exactly two newline-terminated lines, `backup_success 1` (or `0` when `b` is
false) and `backup_number_files` followed by `n`, and nothing after them; the
count is written in decimal (reading it back gives `n`); the path is
`/metrics/job/backup/host/` followed by the host label; and these are the path
and body of the one post the reporter makes. -/
theorem metrics_body_two_lines (b : Bool) (n : Int) (w : World) (s : ProcState) :
    terminatedLines (metricsBody b n).data
        = ([("backup_success " ++ (if b then "1" else "0")).data,
            ("backup_number_files " ++ sprintfD n).data], [])
      ∧ decodeInt (sprintfD n).data = n
      ∧ metricsPath w.labelHost = "/metrics/job/backup/host/" ++ w.labelHost
      ∧ posts (metricsReporter w s).state.trace
          = posts s.trace ++
            (if w.metricsEnabled && w.pushGatewayHostParses
              then [(metricsPath w.labelHost,
                     metricsBody s.backupSuccess s.backupNumberFiles)]
              else []) := by
  refine ⟨?_, decodeInt_sprintfD n, rfl, posts_metricsReporter w s⟩
  have h1 : ∀ c ∈ ("backup_success " ++ (if b then "1" else "0")).data, c ≠ '\n' := by
    cases b <;> decide
  have h2 : ∀ c ∈ ("backup_number_files " ++ sprintfD n).data, c ≠ '\n' := by
    intro c hc
    rw [String.data_append, List.mem_append] at hc
    rcases hc with hc | hc
    · revert c
      decide
    · exact sprintfD_no_newline n c hc
  have hbody : (metricsBody b n).data
      = ("backup_success " ++ (if b then "1" else "0")).data
          ++ '\n' :: (("backup_number_files " ++ sprintfD n).data ++ '\n' :: []) := by
    have hnl1 : "\nbackup_number_files ".data = '\n' :: "backup_number_files ".data := rfl
    have hnl2 : "\n".data = ['\n'] := rfl
    simp only [metricsBody, sprintfD_flag, String.data_append, hnl1, hnl2,
      List.append_assoc, List.cons_append, List.nil_append]
  rw [hbody, terminatedLines_line _ _ h1, terminatedLines_line _ _ h2]
  rfl

end MountainBackup
